import Mathlib

/-!
Verification development for the gossip relay-coordination core.

We shallowly embed the relay picker (`src/src/relays.rs`), the Overlord's
connected-relay bookkeeping (`src/gossip-lib/src/overlord/mod.rs`) and the
Minion's general-feed subscription logic (`src/src/overlord/minion/mod.rs`)
as pure Lean functions over explicit state, and prove the specification
claims about them.

Conventions:
* `DashMap<K, V>` / `HashMap<K, V>` become association lists `List (K × V)`
  with first-match lookup; keys of a well-formed map are pairwise distinct.
* Relay urls and public keys are opaque identifiers modelled as `Nat`
  (the code compares them only for equality).
* Rust `u8`/`u64` counters become `Nat` and `i64` timestamps become `Int`;
  the quantities involved in the claims stay far from the wrap-around
  boundaries, so overflow is not modelled.
* Fallible operations return `Except`; `Result<T, E>` becomes `Except E T`.
-/

namespace Gossip

/-- First-match lookup in an association list (the semantics of
`DashMap::get` / `HashMap::get` once the map is represented as a list
with distinct keys). -/
def alookup {α β : Type} [DecidableEq α] (k : α) : List (α × β) → Option β
  | [] => none
  | e :: rest => if e.1 = k then some e.2 else alookup k rest

/-- Update the value at the first entry whose key is `k`, leaving the list
unchanged when `k` is absent (the semantics of `get_mut` followed by a
mutation). -/
def aupdate {α β : Type} [DecidableEq α] (k : α) (f : β → β) : List (α × β) → List (α × β)
  | [] => []
  | e :: rest => if e.1 = k then (e.1, f e.2) :: rest else e :: aupdate k f rest

/-- Insert-or-replace at key `k` (the semantics of `DashMap::insert`):
replace the first entry with key `k`, or append a new entry when absent. -/
def ainsert {α β : Type} [DecidableEq α] (k : α) (v : β) : List (α × β) → List (α × β)
  | [] => [(k, v)]
  | e :: rest => if e.1 = k then (k, v) :: rest else e :: ainsert k v rest

/-- Remove all entries with key `k` (the semantics of `DashMap::remove` on a
map with distinct keys). -/
def aremove {α β : Type} [DecidableEq α] (k : α) (l : List (α × β)) : List (α × β) :=
  l.filter (fun e => e.1 ≠ k)

/-! ## Relay picker state (`src/src/relays.rs`) -/

/-- Modelled from the spec: `DbRelay` lives in the database module, which is
not part of the surveyed sources; the picker reads only its user `rank`
(0–9, 0 disables) and its derived `success_rate() ∈ [0,1]`.  We carry the
success rate abstractly as the fraction
`success_rate_num / success_rate_den` (with `num ≤ den`). -/
structure DbRelay where
  rank : Nat
  success_rate_num : Nat
  success_rate_den : Nat
deriving DecidableEq

/-- A RelayAssignment is a record of a relay which is serving (or will
serve) the general feed for a set of public keys
(`src/src/relays.rs:12`). -/
structure RelayAssignment where
  relay_url : Nat
  pubkeys : List Nat
deriving DecidableEq

/-- Merging of relay assignments (`RelayAssignment::merge_in`,
`src/src/relays.rs:18`): an error on different urls, otherwise the pubkey
lists are concatenated. -/
def RelayAssignment.merge_in (a other : RelayAssignment) : Except String RelayAssignment :=
  if a.relay_url ≠ other.relay_url then
    Except.error "Attempted to merge relay assignments on different relays"
  else
    Except.ok ⟨a.relay_url, a.pubkeys ++ other.pubkeys⟩

/-- Ways that pick() can fail (`src/src/relays.rs:32`). -/
inductive RelayPickFailure where
  | NoRelays
  | NoPeopleLeft
  | NoProgress
deriving DecidableEq

/-- The RelayTracker state (`src/src/relays.rs:58`).  `max_relays` is read
from the settings at each `pick`, so it is passed as an argument; the
current time is likewise passed explicitly. -/
structure RelayTracker where
  all_relays : List (Nat × DbRelay)
  connected_relays : List Nat
  relay_assignments : List (Nat × RelayAssignment)
  excluded_relays : List (Nat × Int)
  pubkey_counts : List (Nat × Nat)
  person_relay_scores : List (Nat × List (Nat × Nat))
  num_relays_per_person : Nat
deriving DecidableEq

/-- `RelayTracker::add_someone` (`src/src/relays.rs:119`): a no-op when the
pubkey already has a count or already appears in some assignment; otherwise
its count starts at `num_relays_per_person`.  The Rust function always
returns `Ok(())`. -/
def RelayTracker.add_someone (t : RelayTracker) (pubkey : Nat) : RelayTracker :=
  if (alookup pubkey t.pubkey_counts).isSome then t
  else if t.relay_assignments.any (fun e => e.2.pubkeys.contains pubkey) then t
  else { t with pubkey_counts := ainsert pubkey t.num_relays_per_person t.pubkey_counts }

/-- `RelayTracker::remove_someone` (`src/src/relays.rs:136`): drop the
count and remove the first occurrence of the pubkey from every
assignment. -/
def RelayTracker.remove_someone (t : RelayTracker) (pubkey : Nat) : RelayTracker :=
  { t with
    pubkey_counts := aremove pubkey t.pubkey_counts,
    relay_assignments :=
      t.relay_assignments.map (fun e => (e.1, ⟨e.2.relay_url, e.2.pubkeys.erase pubkey⟩)) }

/-- One step of returning a disconnected relay's pubkeys to the counts
(`entry(..).and_modify(|e| *e += 1).or_insert(1)` in
`src/src/relays.rs:196`). -/
def bumpCount (counts : List (Nat × Nat)) (pubkey : Nat) : List (Nat × Nat) :=
  match alookup pubkey counts with
  | some _ => aupdate pubkey (fun c => c + 1) counts
  | none => ainsert pubkey 1 counts

/-- `RelayTracker::relay_disconnected` (`src/src/relays.rs:186`): when the
relay had an assignment, remove it, put the relay in the penalty box until
`now + 30`, and return its pubkeys to `pubkey_counts`; otherwise no
effect.  Note the function takes no exclusion duration: the 30-second
penalty is hardcoded. -/
def RelayTracker.relay_disconnected (t : RelayTracker) (url : Nat) (now : Int) : RelayTracker :=
  match alookup url t.relay_assignments with
  | none => t
  | some assignment =>
    { t with
      relay_assignments := aremove url t.relay_assignments,
      excluded_relays := ainsert url (now + 30) t.excluded_relays,
      pubkey_counts := assignment.pubkeys.foldl bumpCount t.pubkey_counts }

/-- The rank-and-success adjustment factor of `pick`
(`(relay.rank as f32 * (1.3 * success_rate)) as u64`,
`src/src/relays.rs:278`): with `success_rate = num / den` this is the
floor of `rank · 1.3 · num / den`, computed exactly as
`(rank · 13 · num) / (10 · den)` in natural division.  The claims proved
below depend only on facts (such as rank 0 giving factor 0) on which the
`f32` computation and the exact computation agree. -/
def rankFactor (rank num den : Nat) : Nat :=
  rank * 13 * num / (10 * den)

/-- The base (pre-adjustment) score a single pick pass accumulates for
`url`: the sum, over every pubkey that still needs assignments, of the
scores that pubkey's relay list gives to `url`, with the three skip rules
of `src/src/relays.rs:247`:
skip excluded relays, skip not-yet-connected relays when at max, and skip
relays already assigned this pubkey.  The Rust loop accumulates into a
scoreboard map; addition is commutative, so the per-url sum is the same. -/
def pickBaseScore (t : RelayTracker) (at_max_relays : Bool) (url : Nat) : Nat :=
  t.person_relay_scores.foldl
    (fun acc e =>
      match alookup e.1 t.pubkey_counts with
      | none => acc
      | some pkc =>
        if pkc = 0 then acc
        else
          acc + e.2.foldl
            (fun a rs =>
              if (alookup rs.1 t.excluded_relays).isSome then a
              else if at_max_relays && !(t.connected_relays.contains rs.1) then a
              else if (match alookup rs.1 t.relay_assignments with
                       | some assignment => assignment.pubkeys.contains e.1
                       | none => false) then a
              else if rs.1 = url then a + rs.2
              else a)
            0)
    0

/-- The scoreboard after rank/success adjustment
(`src/src/relays.rs:225` and `:273`): one entry per relay in `all_relays`,
carrying `base * rankFactor`. -/
def pickScores (t : RelayTracker) (at_max_relays : Bool) : List (Nat × Nat) :=
  t.all_relays.map (fun e =>
    (e.1, pickBaseScore t at_max_relays e.1 *
      rankFactor e.2.rank e.2.success_rate_num e.2.success_rate_den))

/-- Last maximum of a scoreboard, matching `Iterator::max_by` which returns
the last maximal element (`src/src/relays.rs:283`). -/
def maxByValue : List (Nat × Nat) → Option (Nat × Nat)
  | [] => none
  | e :: rest =>
    match maxByValue rest with
    | none => some e
    | some m => if m.2 ≥ e.2 then some m else some e

/-- The loop of `src/src/relays.rs:307` that determines the pubkeys covered
by the winning relay: walk the pubkeys still seeking relays in order; skip
those already in the winner's assignment; when the pubkey's relay scores
mention the winner, push it and decrement its count (floored at 0).
Returns the covered list and the updated counts. -/
def coverLoop (winner : Nat) (winnerAssignment : Option RelayAssignment)
    (scores : List (Nat × List (Nat × Nat))) :
    List Nat → List (Nat × Nat) → List Nat × List (Nat × Nat)
  | [], counts => ([], counts)
  | p :: rest, counts =>
    if (match winnerAssignment with
        | some a => a.pubkeys.contains p
        | none => false) then
      coverLoop winner winnerAssignment scores rest counts
    else
      match alookup p scores with
      | none => coverLoop winner winnerAssignment scores rest counts
      | some relay_scores =>
        if relay_scores.any (fun e => e.1 = winner) then
          let counts' := aupdate p (fun c => if 0 < c then c - 1 else c) counts
          let r := coverLoop winner winnerAssignment scores rest counts'
          (p :: r.1, r.2)
        else coverLoop winner winnerAssignment scores rest counts

/-- The pruning step of `pick`
(`self.excluded_relays.retain(|_, v| *v > now)`, `src/src/relays.rs:214`):
keep only exclusions whose expiry is still in the future. -/
def prunedTracker (t : RelayTracker) (now : Int) : RelayTracker :=
  { t with excluded_relays := t.excluded_relays.filter (fun e => now < e.2) }

/-- `RelayTracker::pick` (`src/src/relays.rs:206`): create the next
assignment and return the winning url, or a typed `RelayPickFailure`.
The tracker is threaded explicitly; failures are values of the `Except`,
never exceptions.  Steps in source order: compute `at_max_relays`, prune
`excluded_relays` by the current time, fail `NoPeopleLeft` on empty
`pubkey_counts`, fail `NoRelays` on empty `all_relays`, build the adjusted
scoreboard, fail `NoProgress` on a zero winning score, compute the covered
pubkeys (decrementing their counts), fail `NoProgress` on an empty covered
set, drop zero counts, and merge or insert the new assignment.
The pruning step is named `prunedTracker` above. -/
def RelayTracker.pick (t : RelayTracker) (max_relays : Nat) (now : Int) :
    RelayTracker × Except RelayPickFailure Nat :=
  let at_max_relays := decide (t.relay_assignments.length ≥ max_relays)
  let t1 := prunedTracker t now
  if t1.pubkey_counts.isEmpty then (t1, Except.error RelayPickFailure.NoPeopleLeft)
  else if t1.all_relays.isEmpty then (t1, Except.error RelayPickFailure.NoRelays)
  else
    match maxByValue (pickScores t1 at_max_relays) with
    | none => (t1, Except.error RelayPickFailure.NoProgress)
    | some winner =>
      if winner.2 = 0 then (t1, Except.error RelayPickFailure.NoProgress)
      else
        let seeking := (t1.pubkey_counts.filter (fun e => 0 < e.2)).map (fun e => e.1)
        let cov := coverLoop winner.1 (alookup winner.1 t1.relay_assignments)
          t1.person_relay_scores seeking t1.pubkey_counts
        if cov.1.isEmpty then (t1, Except.error RelayPickFailure.NoProgress)
        else
          let t2 := { t1 with pubkey_counts := cov.2.filter (fun e => 0 < e.2) }
          let mergeCovered : RelayAssignment → RelayAssignment :=
            fun a => ⟨a.relay_url, a.pubkeys ++ cov.1⟩
          let assignments' :=
            match alookup winner.1 t2.relay_assignments with
            | some _ => aupdate winner.1 mergeCovered t2.relay_assignments
            | none => (winner.1, (⟨winner.1, cov.1⟩ : RelayAssignment)) :: t2.relay_assignments
          ({ t2 with relay_assignments := assignments' }, Except.ok winner.1)

/-! ## Overlord job model and connected-relay bookkeeping
(`src/gossip-lib/src/overlord/mod.rs`) -/

/-- Modelled from the spec: `RelayConnectionReason` is declared in
`gossip-lib/src/comms.rs`, which is not among the surveyed sources; the
spec (§3, RelayJob) lists these variants. -/
inductive RelayConnectionReason where
  | Follow | FetchMentions | Config | Advertising | PostEvent | PostLike
  | PostContacts | PostMetadata | FetchMetadata | FetchEvent | FetchAugments
  | Discovery | ReadThread | FetchDirectMessages
deriving DecidableEq

/-- Modelled from the spec: Follow, FetchMentions, Config, ReadThread and
FetchDirectMessages are the persistent reasons (§3, RelayJob). -/
def RelayConnectionReason.persistent : RelayConnectionReason → Bool
  | .Follow | .FetchMentions | .Config | .ReadThread | .FetchDirectMessages => true
  | _ => false

/-- Modelled from the spec: the tagged payload detail variants of §3
(`gossip-lib/src/comms.rs` is not among the surveyed sources).  Ids,
addresses, channels and events are opaque `Nat`s. -/
inductive ToMinionPayloadDetail where
  | SubscribeGeneralFeed (pubkeys : List Nat)
  | SubscribeMentions
  | SubscribeOutbox
  | SubscribeDiscover (pubkeys : List Nat)
  | SubscribeThreadFeed (root : Nat) (ancestors : List Nat)
  | SubscribeDmChannel (channel : Nat)
  | SubscribeAugments (ids : List Nat)
  | TempSubscribeMetadata (pubkeys : List Nat)
  | FetchEvent (id : Nat)
  | FetchEventAddr (addr : Nat)
  | PostEvent (event : Nat)
  | Shutdown
  | UnsubscribeThreadFeed
deriving DecidableEq

/-- A payload forwarded to a Minion: a job id (nonzero random for real
jobs, 0 reserved for shutdown) plus the detail. -/
structure ToMinionPayload where
  job_id : Nat
  detail : ToMinionPayloadDetail
deriving DecidableEq

/-- A job recorded in the ConnectedRelays map: why we are connected, and
the payload that was sent. -/
structure RelayJob where
  reason : RelayConnectionReason
  payload : ToMinionPayload
deriving DecidableEq

/-- The target of a broadcast message: `"all"` or one relay's url string. -/
inductive MsgTarget where
  | all
  | url (u : Nat)
deriving DecidableEq

/-- A message on the to-minions broadcast bus. -/
structure ToMinionMessage where
  target : MsgTarget
  payload : ToMinionPayload
deriving DecidableEq

/-- Modelled from the spec: the `Relay` record read through the storage
surface (`gossip-lib/src/relay.rs` is not among the surveyed sources);
`engage_minion` consults only `rank` (0–9, 0 disables, default 3). -/
structure RelayRecord where
  rank : Nat
deriving DecidableEq

/-- The Overlord-visible state that `engage_minion`, `finish_job`,
`maybe_disconnect_relay` and the `MinionJobUpdated` handler touch: the
offline setting, the relay records in storage, the ConnectedRelays map,
the log of messages sent on the to-minions bus, and the urls for which a
new Minion task was spawned. -/
structure OverlordState where
  offline : Bool
  storage_relays : List (Nat × RelayRecord)
  connected_relays : List (Nat × List RelayJob)
  to_minions : List ToMinionMessage
  spawned_minions : List Nat
deriving DecidableEq

/-- `Storage::write_relay_if_missing` as used by `engage_minion`
(`src/gossip-lib/src/overlord/mod.rs:338`): create a default record
(rank 3) when the url is unknown. -/
def write_relay_if_missing (st : OverlordState) (url : Nat) : OverlordState :=
  if (alookup url st.storage_relays).isSome then st
  else { st with storage_relays := ainsert url ⟨3⟩ st.storage_relays }

/-- The connected-or-spawn half of `engage_minion`
(`src/gossip-lib/src/overlord/mod.rs:341`): when a Minion already exists
for the url, forward every job payload over the bus addressed to that url
and push the job onto the relay's entry; otherwise spawn a new Minion with
the payloads and insert the jobs as the relay's entry. -/
def engage_connect (st : OverlordState) (url : Nat) (jobs : List RelayJob) : OverlordState :=
  match alookup url st.connected_relays with
  | some _ =>
    { st with
      to_minions := st.to_minions ++ jobs.map (fun j => ⟨MsgTarget.url url, j.payload⟩),
      connected_relays := aupdate url (fun l => l ++ jobs) st.connected_relays }
  | none =>
    { st with
      spawned_minions := st.spawned_minions ++ [url],
      connected_relays := ainsert url jobs st.connected_relays }

/-- `Overlord::engage_minion` (`src/gossip-lib/src/overlord/mod.rs:323`):
no effect when offline, when the job list is empty, or when the relay
record exists with rank 0; a missing record is created first.  The Rust
function returns `Ok(())` in all of these cases (`Minion::new` failures
are outside this model). -/
def Overlord.engage_minion (st : OverlordState) (url : Nat) (jobs : List RelayJob) :
    OverlordState :=
  if st.offline then st
  else if jobs.isEmpty then st
  else
    match alookup url st.storage_relays with
    | some relay => if relay.rank = 0 then st else engage_connect st url jobs
    | none => engage_connect (write_relay_if_missing st url) url jobs

/-- The targeted Shutdown message `maybe_disconnect_relay` sends
(`src/gossip-lib/src/overlord/mod.rs:1151`): job id 0, Shutdown detail,
addressed to the relay's url. -/
def shutdownMessage (url : Nat) : ToMinionMessage :=
  ⟨MsgTarget.url url, ⟨0, ToMinionPayloadDetail.Shutdown⟩⟩

/-- The disconnect condition of `maybe_disconnect_relay`
(`src/gossip-lib/src/overlord/mod.rs:1141`): the job list is empty, or is
exactly one job whose reason is FetchAugments. -/
def shouldDisconnect : List RelayJob → Bool
  | [] => true
  | [j] => j.reason = RelayConnectionReason.FetchAugments
  | _ => false

/-- `Overlord::maybe_disconnect_relay`
(`src/gossip-lib/src/overlord/mod.rs:1138`): when the relay is in
ConnectedRelays and `shouldDisconnect` holds of its job list, send the
targeted Shutdown message. -/
def Overlord.maybe_disconnect_relay (st : OverlordState) (url : Nat) : OverlordState :=
  match alookup url st.connected_relays with
  | none => st
  | some jobs =>
    if shouldDisconnect jobs then
      { st with to_minions := st.to_minions ++ [shutdownMessage url] }
    else st

/-- `Overlord::finish_job` (`src/gossip-lib/src/overlord/mod.rs:1261`):
by id — a no-op (with an early return that skips `maybe_disconnect_relay`)
when the id is 0, otherwise retain only jobs with a different id; by
reason — retain only jobs with a different reason; then
`maybe_disconnect_relay`. -/
def Overlord.finish_job (st : OverlordState) (relay_url : Nat) (job_id : Option Nat)
    (reason : Option RelayConnectionReason) : OverlordState :=
  match job_id with
  | some jid =>
    if jid = 0 then st
    else
      let cr := aupdate relay_url
        (fun l => l.filter (fun job => job.payload.job_id ≠ jid)) st.connected_relays
      Overlord.maybe_disconnect_relay { st with connected_relays := cr } relay_url
  | none =>
    match reason with
    | some r =>
      let cr := aupdate relay_url
        (fun l => l.filter (fun job => job.reason ≠ r)) st.connected_relays
      Overlord.maybe_disconnect_relay { st with connected_relays := cr } relay_url
    | none => Overlord.maybe_disconnect_relay st relay_url

/-- The `retain_mut` body of the `MinionJobUpdated` handler
(`src/gossip-lib/src/overlord/mod.rs:612`): drop the job whose id is
already `newId`, rewrite the job whose id is `oldId` to carry `newId`,
keep the rest. -/
def jobUpdatedList (oldId newId : Nat) : List RelayJob → List RelayJob
  | [] => []
  | job :: rest =>
    if job.payload.job_id = newId then jobUpdatedList oldId newId rest
    else if job.payload.job_id = oldId then
      { job with payload := { job.payload with job_id := newId } } ::
        jobUpdatedList oldId newId rest
    else job :: jobUpdatedList oldId newId rest

/-- The `ToOverlordMessage::MinionJobUpdated` handler
(`src/gossip-lib/src/overlord/mod.rs:608`): when both ids are nonzero,
apply `jobUpdatedList` to the relay's entry and then
`maybe_disconnect_relay`; otherwise no effect. -/
def Overlord.handle_minion_job_updated (st : OverlordState) (url : Nat)
    (oldId newId : Nat) : OverlordState :=
  if oldId ≠ 0 ∧ newId ≠ 0 then
    let cr := aupdate url (jobUpdatedList oldId newId) st.connected_relays
    Overlord.maybe_disconnect_relay { st with connected_relays := cr } url
  else st

/-! ## Minion exit classification (`Overlord::handle_task_nextjoined`,
`src/gossip-lib/src/overlord/mod.rs:432`) -/

/-- Websocket protocol errors distinguished by the exit handler. -/
inductive WsProtocolError where
  | ResetWithoutClosingHandshake
  | OtherProtocolError
deriving DecidableEq

/-- Websocket errors distinguished by the exit handler: an HTTP handshake
response with a status code, a clean `ConnectionClosed`, a protocol error,
or any other websocket error. -/
inductive WsError where
  | Http (status : Nat)
  | ConnectionClosed
  | Protocol (e : WsProtocolError)
  | OtherWsError
deriving DecidableEq

/-- Minion error kinds distinguished by the exit handler. -/
inductive MinionError where
  | RelayRejectedUs
  | Websocket (w : WsError)
  | OtherError
deriving DecidableEq

/-- The outcome of joining a Minion task: a task join error, a clean
return, or a typed Minion error. -/
inductive MinionJoinOutcome where
  | joinError
  | ok
  | err (e : MinionError)
deriving DecidableEq

/-- The HTTP statuses given the day-long exclusion
(`src/gossip-lib/src/overlord/mod.rs:454`): 301 MOVED_PERMANENTLY,
308 PERMANENT_REDIRECT, 401 UNAUTHORIZED, 402 PAYMENT_REQUIRED,
403 FORBIDDEN, 404 NOT_FOUND, 407 PROXY_AUTHENTICATION_REQUIRED,
451 UNAVAILABLE_FOR_LEGAL_REASONS, 501 NOT_IMPLEMENTED, 502 BAD_GATEWAY. -/
def permanentStatuses : List Nat := [301, 308, 401, 402, 403, 404, 407, 451, 501, 502]

/-- The exclusion duration (in seconds) `handle_task_nextjoined` computes
from the join outcome (`src/gossip-lib/src/overlord/mod.rs:432`). -/
def exclusionSeconds : MinionJoinOutcome → Nat
  | .joinError => 60
  | .ok => 0
  | .err e =>
    match e with
    | .RelayRejectedUs => 60 * 60 * 24 * 365
    | .Websocket w =>
      match w with
      | .Http status =>
        if status ∈ permanentStatuses then 60 * 60 * 24
        else if 400 ≤ status then 90
        else 60
      | .ConnectionClosed => 0
      | .Protocol p =>
        match p with
        | .ResetWithoutClosingHandshake => 30
        | .OtherProtocolError => 120
      | .OtherWsError => 60
    | .OtherError => 60

/-- Whether `handle_task_nextjoined` bumps the relay's failure counter:
on a join error and on every Minion error, not on a clean return
(`src/gossip-lib/src/overlord/mod.rs:437` and `:446`). -/
def bumpsFailureCount : MinionJoinOutcome → Bool
  | .joinError => true
  | .ok => false
  | .err _ => true

/-! ## Minion general-feed subscription
(`Minion::subscribe_general_feed`, `src/src/overlord/minion/mod.rs:281`) -/

/-- The event kinds the general feed subscribes to. -/
inductive EventKind where
  | TextNote
  | Reaction
  | EventDeletion
deriving DecidableEq

/-- The fields of the nostr `Filter` that `subscribe_general_feed`
populates (authors, kinds, `p` tags, since); the remaining fields stay at
their defaults and are omitted from the model. -/
structure Filter where
  authors : List Nat
  kinds : List EventKind
  p : List Nat
  since : Option Int
deriving DecidableEq

/-- The `last_success_at` starting point of the look-back computation
(`src/src/overlord/minion/mod.rs:307`): the recorded time, or 0 when the
relay has never succeeded. -/
def lastSuccessInt (last_success_at : Option Nat) : Int :=
  match last_success_at with
  | some u => (u : Int)
  | none => 0

/-- The look-back computation of `subscribe_general_feed`
(`src/src/overlord/minion/mod.rs:297`): subtract `overlap` from
`last_success_at`, clamp below at 2020-01-01 (Unix 1577836800) giving
`special_since`, and take the max with `now - feed_chunk` giving
`feed_since`.  Returns `(feed_since, special_since)`. -/
def computeFeedSince (last_success_at : Option Nat) (overlap feed_chunk : Nat) (now : Int) :
    Int × Int :=
  let special1 : Int := lastSuccessInt last_success_at - (overlap : Int)
  let special2 : Int := if special1 < 1577836800 then 1577836800 else special1
  let one_feedchunk_ago : Int := now - (feed_chunk : Int)
  (max special2 one_feedchunk_ago, special2)

/-- The filters `subscribe_general_feed` builds
(`src/src/overlord/minion/mod.rs:328`): when our own key is known, a
feed filter authored by us and a mentions (`p`) filter; when the followed
set is nonempty, a feed filter authored by the followed keys. -/
def generalFeedFilters (our_pubkey : Option Nat) (followed : List Nat)
    (feed_since special_since : Int) : List Filter :=
  (match our_pubkey with
   | some k =>
     [{ authors := [k],
        kinds := [EventKind.TextNote, EventKind.Reaction, EventKind.EventDeletion],
        p := [], since := some feed_since },
      { authors := [], kinds := [], p := [k], since := some special_since }]
   | none => []) ++
  (if followed.isEmpty then []
   else
     [{ authors := followed,
        kinds := [EventKind.TextNote, EventKind.Reaction, EventKind.EventDeletion],
        p := [], since := some feed_since }])

/-- `Minion::subscribe_general_feed` acting on the subscription table
(handle → filters; `src/src/overlord/minion/mod.rs:281` together with
`Minion::subscribe` and `Minion::unsubscribe`): an empty filter list
closes any existing `general_feed` subscription, otherwise the filters
are installed under the `general_feed` handle, replacing existing filters
in place. -/
def Minion.subscribe_general_feed (subs : List (String × List Filter))
    (our_pubkey : Option Nat) (followed : List Nat) (last_success_at : Option Nat)
    (overlap feed_chunk : Nat) (now : Int) : List (String × List Filter) :=
  let sinces := computeFeedSince last_success_at overlap feed_chunk now
  let filters := generalFeedFilters our_pubkey followed sinces.1 sinces.2
  if filters.isEmpty then aremove "general_feed" subs
  else ainsert "general_feed" filters subs

/-! ## Concrete fixtures used by witnesses and counterexamples -/

/-- A small relay job fixture. -/
def exJob (r : RelayConnectionReason) (id : Nat) : RelayJob :=
  ⟨r, ⟨id, ToMinionPayloadDetail.SubscribeGeneralFeed []⟩⟩

/-- A tracker with one assignment (relay 1 covering pubkey 5) whose pubkey
count already sits at `num_relays_per_person = 2`. -/
def c1_tracker : RelayTracker :=
  { all_relays := [], connected_relays := [], relay_assignments := [(1, ⟨1, [5]⟩)],
    excluded_relays := [], pubkey_counts := [(5, 2)], person_relay_scores := [],
    num_relays_per_person := 2 }

/-- An Overlord state connected to relay 1 with one persistent Follow job. -/
def c2_state : OverlordState :=
  { offline := false, storage_relays := [(1, ⟨3⟩)],
    connected_relays := [(1, [exJob RelayConnectionReason.Follow 5])],
    to_minions := [], spawned_minions := [] }

/-- An Overlord state connected to relay 1 with a single ephemeral
PostEvent job (id 5). -/
def c4_state : OverlordState :=
  { offline := false, storage_relays := [(1, ⟨3⟩)],
    connected_relays := [(1, [exJob RelayConnectionReason.PostEvent 5])],
    to_minions := [], spawned_minions := [] }

/-- An Overlord state connected to relay 1 with three jobs whose ids are
5, 6 and 7. -/
def c5_state : OverlordState :=
  { offline := false, storage_relays := [(1, ⟨3⟩)],
    connected_relays := [(1, [exJob RelayConnectionReason.Follow 5,
      exJob RelayConnectionReason.Config 6, exJob RelayConnectionReason.PostEvent 7])],
    to_minions := [], spawned_minions := [] }

/-- The tracker of spec scenario S1: two relays of rank 3 with perfect
success rate, two pubkeys seeking two relays each. -/
def c6_tracker : RelayTracker :=
  { all_relays := [(1, ⟨3, 1, 1⟩), (2, ⟨3, 1, 1⟩)], connected_relays := [],
    relay_assignments := [], excluded_relays := [],
    pubkey_counts := [(10, 2), (11, 2)],
    person_relay_scores := [(10, [(1, 100), (2, 50)]), (11, [(1, 80), (2, 40)])],
    num_relays_per_person := 2 }

/-- The S1 tracker with nobody left to assign. -/
def c6e_tracker : RelayTracker :=
  { c6_tracker with pubkey_counts := [] }

/-- An Overlord state whose storage has relay 1 at rank 0. -/
def c7_zero_state : OverlordState :=
  { offline := false, storage_relays := [(1, ⟨0⟩)], connected_relays := [],
    to_minions := [], spawned_minions := [] }

/-! ## Tracker representation invariants -/

/-- Every relay assignment's pubkey list is duplicate-free. -/
def trackerAssignmentsNodup (t : RelayTracker) : Prop :=
  ∀ e ∈ t.relay_assignments, e.2.pubkeys.Nodup

/-- The pubkey-count map has duplicate-free keys (its map representation
invariant). -/
def countsKeysNodup (t : RelayTracker) : Prop :=
  (t.pubkey_counts.map Prod.fst).Nodup

/-! ## Association-list lemmas -/

theorem alookup_eq_none_iff {α β : Type} [DecidableEq α] (k : α) (l : List (α × β)) :
    alookup k l = none ↔ k ∉ l.map Prod.fst := by
  induction l with
  | nil => simp [alookup]
  | cons e rest ih =>
    by_cases h : e.1 = k
    · simp [alookup, h]
    · simp [alookup, h, ih, Ne.symm h]

theorem alookup_aremove_self {α β : Type} [DecidableEq α] (k : α) (l : List (α × β)) :
    alookup k (aremove k l) = none := by
  induction l with
  | nil => rfl
  | cons e rest ih =>
    by_cases h : e.1 = k
    · simpa [aremove, List.filter, h] using ih
    · simpa [aremove, List.filter, h, alookup] using ih

theorem alookup_aremove_ne {α β : Type} [DecidableEq α] {u k : α} (l : List (α × β))
    (h : u ≠ k) : alookup u (aremove k l) = alookup u l := by
  induction l with
  | nil => rfl
  | cons e rest ih =>
    simp only [aremove, List.filter_cons]
    by_cases h1 : e.1 = k
    · have h2 : ¬ e.1 = u := fun hh => h (hh ▸ h1)
      rw [if_neg (by simpa using h1), alookup, if_neg h2]
      exact ih
    · rw [if_pos (by simpa using h1), alookup, alookup]
      by_cases h2 : e.1 = u
      · rw [if_pos h2, if_pos h2]
      · rw [if_neg h2, if_neg h2]; exact ih

theorem alookup_ainsert_self {α β : Type} [DecidableEq α] (k : α) (v : β) (l : List (α × β)) :
    alookup k (ainsert k v l) = some v := by
  induction l with
  | nil => simp [ainsert, alookup]
  | cons e rest ih =>
    by_cases h : e.1 = k
    · simp [ainsert, h, alookup]
    · simpa [ainsert, h, alookup] using ih

theorem alookup_ainsert_ne {α β : Type} [DecidableEq α] {u k : α} (v : β) (l : List (α × β))
    (h : u ≠ k) : alookup u (ainsert k v l) = alookup u l := by
  induction l with
  | nil => simp [ainsert, alookup, Ne.symm h]
  | cons e rest ih =>
    simp only [ainsert]
    by_cases h1 : e.1 = k
    · have h2 : ¬ e.1 = u := fun hh => h (hh ▸ h1)
      rw [if_pos h1, alookup, alookup, if_neg (fun hh => h hh.symm), if_neg h2]
    · rw [if_neg h1, alookup, alookup]
      by_cases h2 : e.1 = u
      · rw [if_pos h2, if_pos h2]
      · rw [if_neg h2, if_neg h2]; exact ih

theorem alookup_aupdate_self {α β : Type} [DecidableEq α] (k : α) (f : β → β)
    (l : List (α × β)) : alookup k (aupdate k f l) = (alookup k l).map f := by
  induction l with
  | nil => rfl
  | cons e rest ih =>
    by_cases h : e.1 = k
    · simp [aupdate, h, alookup]
    · simpa [aupdate, h, alookup] using ih

theorem alookup_aupdate_ne {α β : Type} [DecidableEq α] {u k : α} (f : β → β)
    (l : List (α × β)) (h : u ≠ k) : alookup u (aupdate k f l) = alookup u l := by
  induction l with
  | nil => rfl
  | cons e rest ih =>
    simp only [aupdate]
    by_cases h1 : e.1 = k
    · have h2 : ¬ e.1 = u := fun hh => h (hh ▸ h1)
      rw [if_pos h1, alookup, alookup, if_neg h2, if_neg h2]
    · rw [if_neg h1, alookup, alookup]
      by_cases h2 : e.1 = u
      · rw [if_pos h2, if_pos h2]
      · rw [if_neg h2, if_neg h2]; exact ih

theorem aupdate_keys {α β : Type} [DecidableEq α] (k : α) (f : β → β) (l : List (α × β)) :
    (aupdate k f l).map Prod.fst = l.map Prod.fst := by
  induction l with
  | nil => rfl
  | cons e rest ih =>
    by_cases h : e.1 = k
    · simp [aupdate, h]
    · simp [aupdate, h, ih]

theorem ainsert_keys_absent {α β : Type} [DecidableEq α] {k : α} (v : β) {l : List (α × β)}
    (h : alookup k l = none) : (ainsert k v l).map Prod.fst = l.map Prod.fst ++ [k] := by
  induction l with
  | nil => rfl
  | cons e rest ih =>
    by_cases h1 : e.1 = k
    · simp [alookup, h1] at h
    · simp only [alookup, h1, if_neg h1] at h
      simp [ainsert, h1, ih h]

theorem mem_aupdate {α β : Type} [DecidableEq α] {k : α} {f : β → β} {l : List (α × β)}
    {x : α × β} (hx : x ∈ aupdate k f l) :
    x ∈ l ∨ ∃ v, alookup k l = some v ∧ x = (k, f v) := by
  induction l with
  | nil => simp [aupdate] at hx
  | cons e rest ih =>
    simp only [aupdate] at hx
    by_cases h : e.1 = k
    · rw [if_pos h] at hx
      rcases List.mem_cons.mp hx with hx | hx
      · subst h; exact Or.inr ⟨e.2, by simp [alookup], by simpa using hx⟩
      · exact Or.inl (List.mem_cons_of_mem _ hx)
    · rw [if_neg h] at hx
      rcases List.mem_cons.mp hx with hx | hx
      · exact Or.inl (by simp [hx])
      · rcases ih hx with hx' | ⟨v, hv, hxv⟩
        · exact Or.inl (List.mem_cons_of_mem _ hx')
        · exact Or.inr ⟨v, by simp [alookup, h, hv], hxv⟩

theorem alookup_of_mem_nodup {α β : Type} [DecidableEq α] {k : α} {v : β} {l : List (α × β)}
    (hnd : (l.map Prod.fst).Nodup) (hm : (k, v) ∈ l) : alookup k l = some v := by
  induction l with
  | nil => simp at hm
  | cons e rest ih =>
    rcases List.mem_cons.mp hm with hm | hm
    · simp [alookup, ← hm]
    · have hk : k ∈ rest.map Prod.fst := List.mem_map_of_mem Prod.fst hm
      have h1 : e.1 ≠ k := by
        intro hh
        exact (List.nodup_cons.mp (by simpa using hnd)).1 (hh ▸ hk)
      simp only [alookup, if_neg h1]
      exact ih (List.nodup_cons.mp (by simpa using hnd)).2 hm

/-! ## Lemmas about the pick internals -/

theorem maxByValue_mem {l : List (Nat × Nat)} {m : Nat × Nat}
    (h : maxByValue l = some m) : m ∈ l := by
  induction l with
  | nil => simp [maxByValue] at h
  | cons e rest ih =>
    simp only [maxByValue] at h
    cases hr : maxByValue rest with
    | none => rw [hr] at h; simp at h; simp [h]
    | some m' =>
      rw [hr] at h
      by_cases hc : m'.2 ≥ e.2
      · simp only [if_pos hc] at h
        exact List.mem_cons_of_mem _ (ih (by rw [hr, ← h]))
      · simp only [if_neg hc] at h
        simp at h; simp [h]

theorem maxByValue_isSome {l : List (Nat × Nat)} (h : l ≠ []) :
    ∃ m, maxByValue l = some m := by
  cases l with
  | nil => exact absurd rfl h
  | cons e rest =>
    simp only [maxByValue]
    cases maxByValue rest with
    | none => exact ⟨e, rfl⟩
    | some m' =>
      by_cases hc : m'.2 ≥ e.2
      · exact ⟨m', by simp [hc]⟩
      · exact ⟨e, by simp [hc]⟩

theorem coverLoop_fst_sublist (winner : Nat) (wa : Option RelayAssignment)
    (scores : List (Nat × List (Nat × Nat))) :
    ∀ (l : List Nat) (counts : List (Nat × Nat)),
      (coverLoop winner wa scores l counts).1.Sublist l := by
  intro l
  induction l with
  | nil => intro counts; simp [coverLoop]
  | cons p rest ih =>
    intro counts
    simp only [coverLoop]
    split
    · exact (ih counts).trans (List.sublist_cons_self p rest)
    · split
      · exact (ih counts).trans (List.sublist_cons_self p rest)
      · split
        · exact List.Sublist.cons₂ p (ih _)
        · exact (ih counts).trans (List.sublist_cons_self p rest)

theorem coverLoop_fst_not_assigned (winner : Nat) (asg : RelayAssignment)
    (scores : List (Nat × List (Nat × Nat))) :
    ∀ (l : List Nat) (counts : List (Nat × Nat)) (p : Nat),
      p ∈ (coverLoop winner (some asg) scores l counts).1 → p ∉ asg.pubkeys := by
  intro l
  induction l with
  | nil => intro counts p hp; simp [coverLoop] at hp
  | cons q rest ih =>
    intro counts p hp
    simp only [coverLoop] at hp
    split at hp
    · exact ih counts p hp
    · rename_i hq
      split at hp
      · exact ih counts p hp
      · split at hp
        · rcases List.mem_cons.mp hp with hp | hp
          · subst hp; simpa using hq
          · exact ih _ p hp
        · exact ih counts p hp

theorem coverLoop_snd_keys (winner : Nat) (wa : Option RelayAssignment)
    (scores : List (Nat × List (Nat × Nat))) :
    ∀ (l : List Nat) (counts : List (Nat × Nat)),
      ((coverLoop winner wa scores l counts).2).map Prod.fst = counts.map Prod.fst := by
  intro l
  induction l with
  | nil => intro counts; simp [coverLoop]
  | cons p rest ih =>
    intro counts
    simp only [coverLoop]
    split
    · exact ih counts
    · split
      · exact ih counts
      · split
        · rw [ih _]; exact aupdate_keys _ _ _
        · exact ih counts

theorem alookup_mem {α β : Type} [DecidableEq α] {k : α} {v : β} {l : List (α × β)}
    (h : alookup k l = some v) : (k, v) ∈ l := by
  induction l with
  | nil => simp [alookup] at h
  | cons e rest ih =>
    by_cases h1 : e.1 = k
    · rw [alookup, if_pos h1] at h
      have hv : e.2 = v := Option.some.inj h
      exact List.mem_cons.mpr (Or.inl (by rw [← h1, ← hv]))
    · rw [alookup, if_neg h1] at h
      exact List.mem_cons_of_mem _ (ih h)

theorem aremove_keys_sublist {α β : Type} [DecidableEq α] (k : α) (l : List (α × β)) :
    ((aremove k l).map Prod.fst).Sublist (l.map Prod.fst) :=
  List.Sublist.map Prod.fst (List.filter_sublist l)

/-! ## Lemmas about returning pubkeys to the counts -/

theorem alookup_bumpCount_self (c : List (Nat × Nat)) (p : Nat) :
    alookup p (bumpCount c p) = some ((alookup p c).getD 0 + 1) := by
  unfold bumpCount
  cases hc : alookup p c with
  | none => simp [alookup_ainsert_self]
  | some v => simp [alookup_aupdate_self, hc]

theorem alookup_bumpCount_ne {q p : Nat} (c : List (Nat × Nat)) (h : q ≠ p) :
    alookup q (bumpCount c p) = alookup q c := by
  unfold bumpCount
  cases hc : alookup p c with
  | none => exact alookup_ainsert_ne _ _ h
  | some v => exact alookup_aupdate_ne _ _ h

theorem foldl_bumpCount_not_mem {p : Nat} :
    ∀ (ps : List Nat) (c : List (Nat × Nat)), p ∉ ps →
      alookup p (ps.foldl bumpCount c) = alookup p c := by
  intro ps
  induction ps with
  | nil => intro c _; rfl
  | cons q rest ih =>
    intro c hp
    have hne : p ≠ q := fun hpq => hp (by rw [hpq]; exact List.mem_cons_self q rest)
    rw [List.foldl_cons, ih _ (fun hm => hp (List.mem_cons_of_mem _ hm)),
      alookup_bumpCount_ne _ hne]

theorem foldl_bumpCount_mem {p : Nat} :
    ∀ (ps : List Nat) (c : List (Nat × Nat)), ps.Nodup → p ∈ ps →
      alookup p (ps.foldl bumpCount c) = some ((alookup p c).getD 0 + 1) := by
  intro ps
  induction ps with
  | nil => intro c _ hp; simp at hp
  | cons q rest ih =>
    intro c hnd hp
    rcases List.mem_cons.mp hp with hp | hp
    · subst hp
      rw [List.foldl_cons, foldl_bumpCount_not_mem _ _ (List.nodup_cons.mp hnd).1,
        alookup_bumpCount_self]
    · rw [List.foldl_cons]
      have hne : p ≠ q := fun hpq =>
        (List.nodup_cons.mp hnd).1 (by rw [← hpq]; exact hp)
      exact (ih _ (List.nodup_cons.mp hnd).2 hp).trans
        (by rw [alookup_bumpCount_ne _ hne])

theorem bumpCount_keys_nodup {c : List (Nat × Nat)} (h : (c.map Prod.fst).Nodup) (p : Nat) :
    ((bumpCount c p).map Prod.fst).Nodup := by
  unfold bumpCount
  cases hc : alookup p c with
  | none =>
    rw [ainsert_keys_absent _ hc]
    exact List.Nodup.append h (List.nodup_singleton p)
      (by simpa using (alookup_eq_none_iff p c).mp hc)
  | some v => rw [aupdate_keys]; exact h

theorem foldl_bumpCount_keys_nodup :
    ∀ (ps : List Nat) (c : List (Nat × Nat)), (c.map Prod.fst).Nodup →
      (((ps.foldl bumpCount c).map Prod.fst)).Nodup := by
  intro ps
  induction ps with
  | nil => intro c h; exact h
  | cons q rest ih =>
    intro c h
    rw [List.foldl_cons]
    exact ih _ (bumpCount_keys_nodup h q)

/-! ## Lemma about the MinionJobUpdated rewrite -/

theorem jobUpdatedList_eq (oldId newId : Nat) (l : List RelayJob) :
    jobUpdatedList oldId newId l =
      (l.filter (fun j => j.payload.job_id ≠ newId)).map
        (fun j =>
          if j.payload.job_id = oldId then
            { j with payload := { j.payload with job_id := newId } }
          else j) := by
  induction l with
  | nil => rfl
  | cons j rest ih =>
    by_cases h1 : j.payload.job_id = newId
    · simp [jobUpdatedList, List.filter_cons, h1, ih]
    · by_cases h2 : j.payload.job_id = oldId
      · rw [h2] at h1
        simp [jobUpdatedList, List.filter_cons, h1, h2, ih]
      · simp [jobUpdatedList, List.filter_cons, h1, h2, ih]

/-! ## Lemmas about maybe_disconnect_relay -/

theorem shouldDisconnect_iff (jobs : List RelayJob) :
    shouldDisconnect jobs = true
    ↔ (jobs = [] ∨ ∃ j, jobs = [j] ∧ j.reason = RelayConnectionReason.FetchAugments) := by
  match jobs with
  | [] => simp [shouldDisconnect]
  | [j] => simp [shouldDisconnect]
  | a :: b :: rest => simp [shouldDisconnect]

theorem maybe_disconnect_connected (st : OverlordState) (url : Nat) :
    (Overlord.maybe_disconnect_relay st url).connected_relays = st.connected_relays := by
  unfold Overlord.maybe_disconnect_relay
  cases alookup url st.connected_relays with
  | none => rfl
  | some jobs =>
    dsimp only
    split <;> rfl

theorem maybe_disconnect_eq (st : OverlordState) (url : Nat) (jobs : List RelayJob)
    (h : alookup url st.connected_relays = some jobs) :
    Overlord.maybe_disconnect_relay st url
      = if shouldDisconnect jobs then
          { st with to_minions := st.to_minions ++ [shutdownMessage url] }
        else st := by
  unfold Overlord.maybe_disconnect_relay
  rw [h]

/-! ## Preservation of the assignment invariants -/

theorem pick_preserves_inv (t : RelayTracker) (max_relays : Nat) (now : Int)
    (h1 : trackerAssignmentsNodup t) (h2 : countsKeysNodup t) :
    trackerAssignmentsNodup (t.pick max_relays now).1
    ∧ countsKeysNodup (t.pick max_relays now).1 := by
  have h1p : trackerAssignmentsNodup (prunedTracker t now) := h1
  have h2p : countsKeysNodup (prunedTracker t now) := h2
  simp only [RelayTracker.pick]
  by_cases hce : (prunedTracker t now).pubkey_counts.isEmpty = true
  · rw [if_pos hce]; exact ⟨h1p, h2p⟩
  · rw [if_neg hce]
    by_cases hre : (prunedTracker t now).all_relays.isEmpty = true
    · rw [if_pos hre]; exact ⟨h1p, h2p⟩
    · rw [if_neg hre]
      cases hmax : maxByValue (pickScores (prunedTracker t now)
          (decide (t.relay_assignments.length ≥ max_relays))) with
      | none => exact ⟨h1p, h2p⟩
      | some winner =>
        dsimp only
        by_cases hw : winner.2 = 0
        · rw [if_pos hw]; exact ⟨h1p, h2p⟩
        · rw [if_neg hw]
          cases halook : alookup winner.1 (prunedTracker t now).relay_assignments with
          | some a0 =>
            by_cases hcov : (coverLoop winner.1 (some a0)
                (prunedTracker t now).person_relay_scores
                (((prunedTracker t now).pubkey_counts.filter (fun e => 0 < e.2)).map
                  (fun e => e.1))
                (prunedTracker t now).pubkey_counts).1.isEmpty = true
            · rw [if_pos hcov]; exact ⟨h1p, h2p⟩
            · rw [if_neg hcov]
              dsimp only
              have hseek : (((prunedTracker t now).pubkey_counts.filter
                  (fun e => 0 < e.2)).map (fun e => e.1)).Nodup :=
                List.Nodup.sublist
                  (List.Sublist.map (fun e : Nat × Nat => e.1) (List.filter_sublist _)) h2p
              have hcovnd : (coverLoop winner.1 (some a0)
                  (prunedTracker t now).person_relay_scores
                  (((prunedTracker t now).pubkey_counts.filter (fun e => 0 < e.2)).map
                    (fun e => e.1))
                  (prunedTracker t now).pubkey_counts).1.Nodup :=
                List.Nodup.sublist (coverLoop_fst_sublist _ _ _ _ _) hseek
              constructor
              · intro e he
                rcases mem_aupdate he with he' | ⟨v, hv, hev⟩
                · exact h1p e he'
                · rw [hev]
                  dsimp only
                  have hva : v = a0 := Option.some.inj (hv.symm.trans halook)
                  refine List.Nodup.append (h1p (winner.1, v) (alookup_mem hv)) hcovnd ?_
                  intro x hx hxcov
                  have := coverLoop_fst_not_assigned winner.1 a0
                    (prunedTracker t now).person_relay_scores _ _ x hxcov
                  rw [hva] at hx
                  exact this hx
              · have hc2 : ((coverLoop winner.1 (some a0)
                    (prunedTracker t now).person_relay_scores
                    (((prunedTracker t now).pubkey_counts.filter (fun e => 0 < e.2)).map
                      (fun e => e.1))
                    (prunedTracker t now).pubkey_counts).2.map Prod.fst).Nodup := by
                  rw [coverLoop_snd_keys]
                  exact h2p
                exact List.Nodup.sublist
                  (List.Sublist.map Prod.fst (List.filter_sublist _)) hc2
          | none =>
            by_cases hcov : (coverLoop winner.1 none
                (prunedTracker t now).person_relay_scores
                (((prunedTracker t now).pubkey_counts.filter (fun e => 0 < e.2)).map
                  (fun e => e.1))
                (prunedTracker t now).pubkey_counts).1.isEmpty = true
            · rw [if_pos hcov]; exact ⟨h1p, h2p⟩
            · rw [if_neg hcov]
              dsimp only
              have hseek : (((prunedTracker t now).pubkey_counts.filter
                  (fun e => 0 < e.2)).map (fun e => e.1)).Nodup :=
                List.Nodup.sublist
                  (List.Sublist.map (fun e : Nat × Nat => e.1) (List.filter_sublist _)) h2p
              have hcovnd : (coverLoop winner.1 none
                  (prunedTracker t now).person_relay_scores
                  (((prunedTracker t now).pubkey_counts.filter (fun e => 0 < e.2)).map
                    (fun e => e.1))
                  (prunedTracker t now).pubkey_counts).1.Nodup :=
                List.Nodup.sublist (coverLoop_fst_sublist _ _ _ _ _) hseek
              constructor
              · intro e he
                rcases List.mem_cons.mp he with he' | he'
                · rw [he']
                  exact hcovnd
                · exact h1p e he'
              · have hc2 : ((coverLoop winner.1 none
                    (prunedTracker t now).person_relay_scores
                    (((prunedTracker t now).pubkey_counts.filter (fun e => 0 < e.2)).map
                      (fun e => e.1))
                    (prunedTracker t now).pubkey_counts).2.map Prod.fst).Nodup := by
                  rw [coverLoop_snd_keys]
                  exact h2p
                exact List.Nodup.sublist
                  (List.Sublist.map Prod.fst (List.filter_sublist _)) hc2

/-! ## Claims -/

/-- C1, counterexample.  The claim says `relay_disconnected` honours the
requested exclusion duration (`excluded_relays[url] ≥ now + s`) and caps
the returned counts at `num_relays_per_person`.  On the code
(`src/src/relays.rs:186`) the penalty is a hardcoded `now + 30` — so the
requested `s = 60` is not honoured — and the count is incremented without
a cap: from `num_relays_per_person = 2` it reaches 3. -/
theorem C1_counterexample :
    alookup 1 (RelayTracker.relay_disconnected c1_tracker 1 1000).excluded_relays = some 1030
    ∧ ¬ ((1000 : Int) + 60 ≤ 1030)
    ∧ alookup 5 (RelayTracker.relay_disconnected c1_tracker 1 1000).pubkey_counts = some 3
    ∧ ¬ (3 ≤ c1_tracker.num_relays_per_person) := by
  refine ⟨by decide, by decide, by decide, by decide⟩

/-- C1, amended.  `relay_disconnected(url)` (which takes no exclusion
duration) removes the assignment for `url` when one exists, leaves every
other assignment alone, inserts `excluded_relays[url] = now + 30`
regardless of any requested duration, and returns each of the
assignment's identities to `pubkey_counts` by incrementing its count by 1
(starting from 0 when absent) without any cap. -/
theorem C1_theorem (t : RelayTracker) (url : Nat) (now : Int) (a : RelayAssignment)
    (h : alookup url t.relay_assignments = some a) (hnd : a.pubkeys.Nodup) :
    alookup url (t.relay_disconnected url now).relay_assignments = none
    ∧ (∀ u, u ≠ url →
        alookup u (t.relay_disconnected url now).relay_assignments
          = alookup u t.relay_assignments)
    ∧ alookup url (t.relay_disconnected url now).excluded_relays = some (now + 30)
    ∧ (∀ p, p ∈ a.pubkeys →
        alookup p (t.relay_disconnected url now).pubkey_counts
          = some ((alookup p t.pubkey_counts).getD 0 + 1))
    ∧ (∀ p, p ∉ a.pubkeys →
        alookup p (t.relay_disconnected url now).pubkey_counts
          = alookup p t.pubkey_counts) := by
  simp only [RelayTracker.relay_disconnected, h]
  refine ⟨alookup_aremove_self url _, fun u hu => alookup_aremove_ne _ hu,
    alookup_ainsert_self _ _ _, fun p hp => foldl_bumpCount_mem _ _ hnd hp,
    fun p hp => foldl_bumpCount_not_mem _ _ hp⟩

/-- C1, witness for the amended theorem at the concrete fixture. -/
theorem C1_witness :
    alookup 1 (RelayTracker.relay_disconnected c1_tracker 1 1000).excluded_relays
      = some (1000 + 30)
    ∧ alookup 5 (RelayTracker.relay_disconnected c1_tracker 1 1000).pubkey_counts
      = some ((alookup 5 c1_tracker.pubkey_counts).getD 0 + 1) := by
  obtain ⟨-, -, h3, h4, -⟩ :=
    C1_theorem c1_tracker 1 1000 ⟨1, [5]⟩ (by decide) (by decide)
  exact ⟨h3, h4 5 (by decide)⟩

/-- C2, counterexample.  The claim says a newly added persistent job whose
reason already appears supersedes the existing entry.  In the code
(`src/gossip-lib/src/overlord/mod.rs:341`) `engage_minion` pushes the new
job onto the relay's entry: after engaging a second Follow job the entry
holds two Follow jobs. -/
theorem C2_counterexample :
    alookup 1 (Overlord.engage_minion c2_state 1
        [exJob RelayConnectionReason.Follow 6]).connected_relays
      = some [exJob RelayConnectionReason.Follow 5, exJob RelayConnectionReason.Follow 6]
    ∧ ¬ ((((alookup 1 (Overlord.engage_minion c2_state 1
          [exJob RelayConnectionReason.Follow 6]).connected_relays).getD []).countP
            (fun j => j.reason == RelayConnectionReason.Follow)) ≤ 1) := by
  refine ⟨by decide, by decide⟩

/-- C2, amended.  When a Minion already exists for the url (and the offline,
empty-jobs and rank-0 early returns do not apply), `engage_minion` appends
the new jobs to the relay's ConnectedRelays entry — persistent jobs with
an already-present reason accumulate alongside the existing entry rather
than superseding it — and leaves every other relay's entry unchanged. -/
theorem C2_theorem (st : OverlordState) (url : Nat) (jobs : List RelayJob)
    (l : List RelayJob) (h0 : st.offline = false) (h1 : jobs ≠ [])
    (h2 : ∀ r, alookup url st.storage_relays = some r → r.rank ≠ 0)
    (h3 : alookup url st.connected_relays = some l) :
    alookup url (Overlord.engage_minion st url jobs).connected_relays = some (l ++ jobs)
    ∧ ∀ u, u ≠ url →
        alookup u (Overlord.engage_minion st url jobs).connected_relays
          = alookup u st.connected_relays := by
  have key : ∀ st' : OverlordState, st'.connected_relays = st.connected_relays →
      alookup url (engage_connect st' url jobs).connected_relays = some (l ++ jobs)
      ∧ ∀ u, u ≠ url →
          alookup u (engage_connect st' url jobs).connected_relays
            = alookup u st.connected_relays := by
    intro st' hcr
    simp only [engage_connect, hcr, h3]
    constructor
    · rw [alookup_aupdate_self, h3]; rfl
    · intro u hu
      exact alookup_aupdate_ne _ _ hu
  simp only [Overlord.engage_minion, h0, Bool.false_eq_true, if_false,
    List.isEmpty_eq_true]
  rw [if_neg h1]
  cases hs : alookup url st.storage_relays with
  | none =>
    dsimp only
    refine key _ ?_
    unfold write_relay_if_missing
    split <;> rfl
  | some r =>
    dsimp only
    rw [if_neg (h2 r hs)]
    exact key _ rfl

/-- C2, witness for the amended theorem at the concrete fixture. -/
theorem C2_witness :
    alookup 1 (Overlord.engage_minion c2_state 1
        [exJob RelayConnectionReason.Config 6]).connected_relays
      = some ([exJob RelayConnectionReason.Follow 5] ++ [exJob RelayConnectionReason.Config 6]) := by
  exact (C2_theorem c2_state 1 [exJob RelayConnectionReason.Config 6]
    [exJob RelayConnectionReason.Follow 5] (by decide) (by decide)
    (fun r hr => by simp [c2_state, alookup] at hr; simp [← hr]) (by decide)).1

/-- C3, counterexample.  The claim's parenthetical (following the
error-handling section of the spec) counts HTTP status 410 among the
permanent-relay statuses given a long exclusion; the code
(`src/gossip-lib/src/overlord/mod.rs:453`) has no arm for 410, which
therefore falls into the `≥ 400` case and gets 90 seconds, not a long
exclusion. -/
theorem C3_counterexample :
    exclusionSeconds (MinionJoinOutcome.err (MinionError.Websocket (WsError.Http 410))) = 90
    ∧ ¬ (86400 ≤ exclusionSeconds
        (MinionJoinOutcome.err (MinionError.Websocket (WsError.Http 410)))) := by
  refine ⟨by decide, by decide⟩

/-- C3, amended.  The exclusion computed by `handle_task_nextjoined`:
clean exit and expected close (`ConnectionClosed`) give 0 s; a task join
error and a generic Minion error give 60 s and bump the relay's failure
counter (a clean exit does not); a handshake HTTP status in
{401,402,403,404,407,451,501,502,301,308} gives 86 400 s, any other
status ≥ 400 gives 90 s (this includes 410, which is not in the
permanent set), and other statuses give 60 s; a protocol
reset-without-closing-handshake gives 30 s; `RelayRejectedUs` gives one
year (31 536 000 s). -/
theorem C3_theorem :
    exclusionSeconds MinionJoinOutcome.ok = 0
    ∧ exclusionSeconds
        (MinionJoinOutcome.err (MinionError.Websocket WsError.ConnectionClosed)) = 0
    ∧ exclusionSeconds MinionJoinOutcome.joinError = 60
    ∧ bumpsFailureCount MinionJoinOutcome.joinError = true
    ∧ exclusionSeconds (MinionJoinOutcome.err MinionError.OtherError) = 60
    ∧ bumpsFailureCount (MinionJoinOutcome.err MinionError.OtherError) = true
    ∧ bumpsFailureCount MinionJoinOutcome.ok = false
    ∧ (∀ s, s ∈ permanentStatuses →
        exclusionSeconds (MinionJoinOutcome.err (MinionError.Websocket (WsError.Http s)))
          = 86400)
    ∧ (∀ s, s ∉ permanentStatuses → 400 ≤ s →
        exclusionSeconds (MinionJoinOutcome.err (MinionError.Websocket (WsError.Http s)))
          = 90)
    ∧ (∀ s, s ∉ permanentStatuses → s < 400 →
        exclusionSeconds (MinionJoinOutcome.err (MinionError.Websocket (WsError.Http s)))
          = 60)
    ∧ exclusionSeconds (MinionJoinOutcome.err (MinionError.Websocket
        (WsError.Protocol WsProtocolError.ResetWithoutClosingHandshake))) = 30
    ∧ exclusionSeconds (MinionJoinOutcome.err MinionError.RelayRejectedUs) = 31536000 := by
  refine ⟨rfl, rfl, rfl, rfl, rfl, rfl, rfl, ?_, ?_, ?_, rfl, rfl⟩
  · intro s hs
    simp [exclusionSeconds, hs]
  · intro s hs h400
    simp [exclusionSeconds, hs, h400]
  · intro s hs h400
    simp [exclusionSeconds, hs, Nat.not_le.mpr h400]

/-- C3, witness instantiating the three status ranges. -/
theorem C3_witness :
    exclusionSeconds (MinionJoinOutcome.err (MinionError.Websocket (WsError.Http 401)))
      = 86400
    ∧ exclusionSeconds (MinionJoinOutcome.err (MinionError.Websocket (WsError.Http 500)))
      = 90
    ∧ exclusionSeconds (MinionJoinOutcome.err (MinionError.Websocket (WsError.Http 302)))
      = 60 := by
  obtain ⟨-, -, -, -, -, -, -, h8, h9, h10, -, -⟩ := C3_theorem
  exact ⟨h8 401 (by decide), h9 500 (by decide) (by decide),
    h10 302 (by decide) (by decide)⟩

/-- C4.  For a url present in ConnectedRelays and a nonzero job id,
`finish_job(url, by_id)` removes exactly the jobs with that id from the
url's entry, leaves every other relay's entry unchanged, and the targeted
Shutdown payload is sent to that Minion if and only if the remaining list
is empty or consists of a single FetchAugments job. -/
theorem C4_theorem (st : OverlordState) (url : Nat) (jid : Nat) (l : List RelayJob)
    (h0 : jid ≠ 0) (h1 : alookup url st.connected_relays = some l) :
    alookup url (Overlord.finish_job st url (some jid) none).connected_relays
      = some (l.filter (fun j => j.payload.job_id ≠ jid))
    ∧ (∀ u, u ≠ url →
        alookup u (Overlord.finish_job st url (some jid) none).connected_relays
          = alookup u st.connected_relays)
    ∧ ((Overlord.finish_job st url (some jid) none).to_minions
          = st.to_minions ++ [shutdownMessage url]
        ↔ (l.filter (fun j => j.payload.job_id ≠ jid) = []
           ∨ ∃ j, l.filter (fun j => j.payload.job_id ≠ jid) = [j]
               ∧ j.reason = RelayConnectionReason.FetchAugments))
    ∧ ((Overlord.finish_job st url (some jid) none).to_minions = st.to_minions
        ↔ ¬ (l.filter (fun j => j.payload.job_id ≠ jid) = []
           ∨ ∃ j, l.filter (fun j => j.payload.job_id ≠ jid) = [j]
               ∧ j.reason = RelayConnectionReason.FetchAugments)) := by
  simp only [Overlord.finish_job]
  rw [if_neg h0]
  have hcr : alookup url
      (aupdate url (fun jl => jl.filter (fun job => job.payload.job_id ≠ jid))
        st.connected_relays)
      = some (l.filter (fun j => j.payload.job_id ≠ jid)) := by
    rw [alookup_aupdate_self, h1]; rfl
  rw [maybe_disconnect_eq _ url (l.filter (fun j => j.payload.job_id ≠ jid)) hcr]
  by_cases hd : shouldDisconnect (l.filter (fun j => j.payload.job_id ≠ jid)) = true
  · rw [if_pos hd]
    refine ⟨hcr, fun u hu => alookup_aupdate_ne _ _ hu, ?_, ?_⟩
    · exact ⟨fun _ => (shouldDisconnect_iff _).mp hd, fun _ => rfl⟩
    · constructor
      · intro hmin
        exact absurd (congrArg List.length hmin) (by simp)
      · intro hncond
        exact absurd ((shouldDisconnect_iff _).mp hd) hncond
  · rw [if_neg hd]
    refine ⟨hcr, fun u hu => alookup_aupdate_ne _ _ hu, ?_, ?_⟩
    · constructor
      · intro hmin
        exact absurd (congrArg List.length hmin) (by simp)
      · intro hcond
        exact absurd ((shouldDisconnect_iff _).mpr hcond) hd
    · exact ⟨fun _ hcond => hd ((shouldDisconnect_iff _).mpr hcond), fun _ => rfl⟩

/-- C4, witness: finishing the only job empties the list and the Shutdown
message is sent. -/
theorem C4_witness :
    alookup 1 (Overlord.finish_job c4_state 1 (some 5) none).connected_relays
      = some (([exJob RelayConnectionReason.PostEvent 5]).filter
          (fun j => j.payload.job_id ≠ 5))
    ∧ (Overlord.finish_job c4_state 1 (some 5) none).to_minions
        = c4_state.to_minions ++ [shutdownMessage 1] := by
  obtain ⟨ha, -, hc, -⟩ :=
    C4_theorem c4_state 1 5 [exJob RelayConnectionReason.PostEvent 5] (by decide) (by decide)
  exact ⟨ha, hc.mpr (Or.inl (by decide))⟩

/-- C5.  For nonzero job ids old and new and a url present in
ConnectedRelays, handling MinionJobUpdated(url, old, new) produces for
that url the original list with any row whose job_id is new removed and
the row whose job_id is old rewritten to carry new, in order, all other
rows kept unchanged; other relays' entries are untouched. -/
theorem C5_theorem (st : OverlordState) (url : Nat) (oldId newId : Nat) (l : List RelayJob)
    (h0 : oldId ≠ 0) (h1 : newId ≠ 0) (h2 : alookup url st.connected_relays = some l) :
    alookup url (Overlord.handle_minion_job_updated st url oldId newId).connected_relays
      = some ((l.filter (fun j => j.payload.job_id ≠ newId)).map
          (fun j =>
            if j.payload.job_id = oldId then
              { j with payload := { j.payload with job_id := newId } }
            else j))
    ∧ ∀ u, u ≠ url →
        alookup u (Overlord.handle_minion_job_updated st url oldId newId).connected_relays
          = alookup u st.connected_relays := by
  simp only [Overlord.handle_minion_job_updated]
  rw [if_pos ⟨h0, h1⟩]
  have hconn := maybe_disconnect_connected
    { st with connected_relays := aupdate url (jobUpdatedList oldId newId) st.connected_relays }
    url
  constructor
  · rw [hconn, alookup_aupdate_self, h2]
    exact congrArg some (jobUpdatedList_eq oldId newId l)
  · intro u hu
    rw [hconn]
    exact alookup_aupdate_ne _ _ hu

/-- C5, witness: renumbering job 5 to 6 removes the pre-existing job 6 and
rewrites job 5, keeping job 7. -/
theorem C5_witness :
    alookup 1 (Overlord.handle_minion_job_updated c5_state 1 5 6).connected_relays
      = some ((([exJob RelayConnectionReason.Follow 5, exJob RelayConnectionReason.Config 6,
          exJob RelayConnectionReason.PostEvent 7]).filter
            (fun j => j.payload.job_id ≠ 6)).map
          (fun j =>
            if j.payload.job_id = 5 then
              { j with payload := { j.payload with job_id := 6 } }
            else j)) := by
  exact (C5_theorem c5_state 1 5 6
    [exJob RelayConnectionReason.Follow 5, exJob RelayConnectionReason.Config 6,
      exJob RelayConnectionReason.PostEvent 7] (by decide) (by decide) (by decide)).1

/-- C9.  `add_someone` is idempotent: a second call with the same pubkey is
a no-op; when the pubkey already has a count or appears in some
assignment the call leaves the tracker unchanged; otherwise only
`pubkey_counts` changes, receiving the pubkey at
`num_relays_per_person`. -/
theorem C9_theorem (t : RelayTracker) (p : Nat) :
    RelayTracker.add_someone (RelayTracker.add_someone t p) p
      = RelayTracker.add_someone t p
    ∧ (((alookup p t.pubkey_counts).isSome
        ∨ t.relay_assignments.any (fun e => e.2.pubkeys.contains p) = true) →
        RelayTracker.add_someone t p = t)
    ∧ ((alookup p t.pubkey_counts = none
        ∧ t.relay_assignments.any (fun e => e.2.pubkeys.contains p) = false) →
        (RelayTracker.add_someone t p).pubkey_counts
            = ainsert p t.num_relays_per_person t.pubkey_counts
        ∧ (RelayTracker.add_someone t p).relay_assignments = t.relay_assignments
        ∧ (RelayTracker.add_someone t p).all_relays = t.all_relays
        ∧ (RelayTracker.add_someone t p).excluded_relays = t.excluded_relays
        ∧ (RelayTracker.add_someone t p).person_relay_scores = t.person_relay_scores) := by
  by_cases hc : (alookup p t.pubkey_counts).isSome
  · have ht : RelayTracker.add_someone t p = t := by
      unfold RelayTracker.add_someone
      rw [if_pos hc]
    refine ⟨by rw [ht]; exact ht, fun _ => ht, fun hno => ?_⟩
    rw [hno.1] at hc
    simp at hc
  · by_cases ha : t.relay_assignments.any (fun e => e.2.pubkeys.contains p) = true
    · have ht : RelayTracker.add_someone t p = t := by
        unfold RelayTracker.add_someone
        rw [if_neg hc, if_pos ha]
      refine ⟨by rw [ht]; exact ht, fun _ => ht, fun hno => ?_⟩
      rw [hno.2] at ha
      simp at ha
    · have ht : RelayTracker.add_someone t p
          = { t with pubkey_counts := ainsert p t.num_relays_per_person t.pubkey_counts } := by
        unfold RelayTracker.add_someone
        rw [if_neg hc, if_neg ha]
      refine ⟨?_, fun hor => ?_, fun _ => by rw [ht]; exact ⟨rfl, rfl, rfl, rfl, rfl⟩⟩
      · conv_lhs => rw [ht]
        unfold RelayTracker.add_someone
        rw [if_pos (by rw [alookup_ainsert_self]; rfl)]
        exact ht.symm
      · rcases hor with hor | hor
        · exact absurd hor hc
        · exact absurd hor ha

/-- C9, witness for the idempotence and insertion cases on the fixture
tracker (pubkey 7 is fresh there). -/
theorem C9_witness :
    RelayTracker.add_someone (RelayTracker.add_someone c1_tracker 7) 7
      = RelayTracker.add_someone c1_tracker 7
    ∧ (RelayTracker.add_someone c1_tracker 7).pubkey_counts
        = ainsert 7 c1_tracker.num_relays_per_person c1_tracker.pubkey_counts := by
  obtain ⟨h1, -, h3⟩ := C9_theorem c1_tracker 7
  exact ⟨h1, (h3 ⟨by decide, by decide⟩).1⟩

/-- C8, counterexample.  The claim says SubscribeGeneralFeed installs
exactly two filters with the authors filter over the given identities.
The code (`src/src/overlord/minion/mod.rs:328` and `:360`) additionally
installs an authored-by-us feed filter: with our key known and a nonempty
followed set the `general_feed` subscription holds three filters. -/
theorem C8_counterexample :
    (alookup "general_feed" (Minion.subscribe_general_feed [] (some 1) [2, 3]
        (some 1700000000) 300 86400 1700010000)).map List.length = some 3
    ∧ ¬ ((alookup "general_feed" (Minion.subscribe_general_feed [] (some 1) [2, 3]
        (some 1700000000) 300 86400 1700010000)).map List.length = some 2) := by
  refine ⟨by decide, by decide⟩

/-- C8, amended.  `subscribe_general_feed` computes
`feed_since = max(last_success_at − overlap, now − feed_chunk, 2020-01-01)`
and `special_since = max(last_success_at − overlap, 2020-01-01)` (so both
are at least Unix time 1577836800), and — when our own key `k` is known
and the followed set is nonempty — replaces any existing `general_feed`
subscription with exactly three filters:
`{authors:[k], kinds:[TextNote,Reaction,EventDeletion], since:feed_since}`,
`{p:[k], since:special_since}`, and
`{authors:followed, kinds:[TextNote,Reaction,EventDeletion],
since:feed_since}`. -/
theorem C8_theorem (last : Option Nat) (ov fc : Nat) (now : Int) (k : Nat)
    (followed : List Nat) (subs : List (String × List Filter)) (hf : followed ≠ []) :
    (computeFeedSince last ov fc now).1
      = max (max (lastSuccessInt last - (ov : Int)) 1577836800) (now - (fc : Int))
    ∧ (computeFeedSince last ov fc now).2
      = max (lastSuccessInt last - (ov : Int)) 1577836800
    ∧ (1577836800 : Int) ≤ (computeFeedSince last ov fc now).1
    ∧ (1577836800 : Int) ≤ (computeFeedSince last ov fc now).2
    ∧ alookup "general_feed"
        (Minion.subscribe_general_feed subs (some k) followed last ov fc now)
      = some
        [⟨[k], [EventKind.TextNote, EventKind.Reaction, EventKind.EventDeletion], [],
           some (computeFeedSince last ov fc now).1⟩,
         ⟨[], [], [k], some (computeFeedSince last ov fc now).2⟩,
         ⟨followed, [EventKind.TextNote, EventKind.Reaction, EventKind.EventDeletion], [],
           some (computeFeedSince last ov fc now).1⟩] := by
  have hmax : ∀ a c : Int, (if a < c then c else a) = max a c := by
    intro a c
    by_cases h : a < c
    · rw [if_pos h, max_eq_right (le_of_lt h)]
    · rw [if_neg h, max_eq_left (le_of_not_lt h)]
  have h2 : (computeFeedSince last ov fc now).2
      = max (lastSuccessInt last - (ov : Int)) 1577836800 := by
    simp only [computeFeedSince]
    exact hmax _ _
  have h1 : (computeFeedSince last ov fc now).1
      = max (max (lastSuccessInt last - (ov : Int)) 1577836800) (now - (fc : Int)) := by
    simp only [computeFeedSince]
    rw [hmax]
  refine ⟨h1, h2, ?_, ?_, ?_⟩
  · rw [h1]
    exact le_trans (le_max_right _ _) (le_max_left _ _)
  · rw [h2]
    exact le_max_right _ _
  · have hemp : followed.isEmpty = false := by
      cases followed with
      | nil => exact absurd rfl hf
      | cons a rest => rfl
    simp only [Minion.subscribe_general_feed, generalFeedFilters, hemp]
    rw [if_neg (by simp)]
    rw [alookup_ainsert_self]
    rfl

/-- C8, witness for the amended theorem at concrete inputs. -/
theorem C8_witness :
    (computeFeedSince (some 1700000000) 300 86400 1700010000).1
      = max (max (lastSuccessInt (some 1700000000) - (300 : Int)) 1577836800)
          ((1700010000 : Int) - (86400 : Int))
    ∧ (1577836800 : Int) ≤ (computeFeedSince (some 1700000000) 300 86400 1700010000).1
    ∧ alookup "general_feed"
        (Minion.subscribe_general_feed [] (some 1) [2, 3] (some 1700000000) 300 86400
          1700010000)
      = some
        [⟨[1], [EventKind.TextNote, EventKind.Reaction, EventKind.EventDeletion], [],
           some (computeFeedSince (some 1700000000) 300 86400 1700010000).1⟩,
         ⟨[], [], [1], some (computeFeedSince (some 1700000000) 300 86400 1700010000).2⟩,
         ⟨[2, 3], [EventKind.TextNote, EventKind.Reaction, EventKind.EventDeletion], [],
           some (computeFeedSince (some 1700000000) 300 86400 1700010000).1⟩] := by
  obtain ⟨h1, -, h3, -, h5⟩ :=
    C8_theorem (some 1700000000) 300 86400 1700010000 1 [2, 3] [] (by decide)
  exact ⟨h1, h3, h5⟩

/-- C6.  Every call to `pick` first prunes `excluded_relays` entries whose
expiry has passed (the returned tracker's exclusions are exactly the
still-live ones, whatever the outcome); it then returns the typed value
`NoPeopleLeft` when `pubkey_counts` is empty, else `NoRelays` when
`all_relays` is empty, else `NoProgress` exactly when the maximal
rank-and-success-adjusted score is zero or the covered identity set of
the winning relay is empty.  Failures are `Except.error` values of
`RelayPickFailure`; `pick` is a total function and never throws. -/
theorem C6_theorem (t : RelayTracker) (max_relays : Nat) (now : Int) :
    (t.pick max_relays now).1.excluded_relays
      = t.excluded_relays.filter (fun e => now < e.2)
    ∧ (t.pubkey_counts = [] →
        (t.pick max_relays now).2 = Except.error RelayPickFailure.NoPeopleLeft)
    ∧ (t.pubkey_counts ≠ [] → t.all_relays = [] →
        (t.pick max_relays now).2 = Except.error RelayPickFailure.NoRelays)
    ∧ (t.pubkey_counts ≠ [] → t.all_relays ≠ [] →
        ∀ w s, maxByValue (pickScores (prunedTracker t now)
            (decide (t.relay_assignments.length ≥ max_relays))) = some (w, s) →
        ((t.pick max_relays now).2 = Except.error RelayPickFailure.NoProgress
          ↔ (s = 0
             ∨ (coverLoop w (alookup w (prunedTracker t now).relay_assignments)
                 (prunedTracker t now).person_relay_scores
                 (((prunedTracker t now).pubkey_counts.filter (fun e => 0 < e.2)).map
                   (fun e => e.1))
                 (prunedTracker t now).pubkey_counts).1 = []))) := by
  have hcounts : (prunedTracker t now).pubkey_counts = t.pubkey_counts := rfl
  have hrelays : (prunedTracker t now).all_relays = t.all_relays := rfl
  refine ⟨?_, ?_, ?_, ?_⟩
  · simp only [RelayTracker.pick]
    split
    · rfl
    · split
      · rfl
      · split
        · rfl
        · split
          · rfl
          · split
            · rfl
            · rfl
  · intro h
    simp only [RelayTracker.pick]
    rw [if_pos (show (prunedTracker t now).pubkey_counts.isEmpty = true from by
      rw [hcounts, h]; rfl)]
  · intro h1 h2
    simp only [RelayTracker.pick]
    have hpe : (prunedTracker t now).pubkey_counts.isEmpty = false := by
      rw [hcounts]
      cases hc : t.pubkey_counts with
      | nil => exact absurd hc h1
      | cons a rest => rfl
    rw [if_neg (by rw [hpe]; exact Bool.false_ne_true),
      if_pos (show (prunedTracker t now).all_relays.isEmpty = true from by
        rw [hrelays, h2]; rfl)]
  · intro h1 h2 w s hmax
    simp only [RelayTracker.pick]
    have hpe : (prunedTracker t now).pubkey_counts.isEmpty = false := by
      rw [hcounts]
      cases hc : t.pubkey_counts with
      | nil => exact absurd hc h1
      | cons a rest => rfl
    have hre : (prunedTracker t now).all_relays.isEmpty = false := by
      rw [hrelays]
      cases hc : t.all_relays with
      | nil => exact absurd hc h2
      | cons a rest => rfl
    rw [if_neg (by rw [hpe]; exact Bool.false_ne_true),
      if_neg (by rw [hre]; exact Bool.false_ne_true), hmax]
    dsimp only
    by_cases hs : s = 0
    · rw [if_pos hs]
      exact ⟨fun _ => Or.inl hs, fun _ => rfl⟩
    · rw [if_neg hs]
      by_cases hcov : (coverLoop w (alookup w (prunedTracker t now).relay_assignments)
          (prunedTracker t now).person_relay_scores
          (((prunedTracker t now).pubkey_counts.filter (fun e => 0 < e.2)).map
            (fun e => e.1))
          (prunedTracker t now).pubkey_counts).1 = []
      · rw [if_pos (show _ = true from by rw [hcov]; rfl)]
        exact ⟨fun _ => Or.inr hcov, fun _ => rfl⟩
      · rw [if_neg (show ¬ _ = true from fun hemp => hcov (by
          cases hcl : (coverLoop w (alookup w (prunedTracker t now).relay_assignments)
              (prunedTracker t now).person_relay_scores
              (((prunedTracker t now).pubkey_counts.filter (fun e => 0 < e.2)).map
                (fun e => e.1))
              (prunedTracker t now).pubkey_counts).1 with
          | nil => rfl
          | cons a rest => rw [hcl] at hemp; exact absurd hemp (by simp)))]
        constructor
        · intro heq
          exact absurd heq (fun hh => Except.noConfusion hh)
        · intro hor
          rcases hor with hs' | hcov'
          · exact absurd hs' hs
          · exact absurd hcov' hcov

/-- C6, witness: the empty-counts tracker yields NoPeopleLeft; the S1
tracker's pick prunes (trivially) and its NoProgress condition is
settled negatively at the concrete winner (relay 1, score 540). -/
theorem C6_witness :
    (c6e_tracker.pick 5 1000).2 = Except.error RelayPickFailure.NoPeopleLeft
    ∧ (c6_tracker.pick 5 1000).1.excluded_relays
        = c6_tracker.excluded_relays.filter (fun e => 1000 < e.2)
    ∧ ((c6_tracker.pick 5 1000).2 = Except.error RelayPickFailure.NoProgress
        ↔ (540 = 0
           ∨ (coverLoop 1 (alookup 1 (prunedTracker c6_tracker 1000).relay_assignments)
               (prunedTracker c6_tracker 1000).person_relay_scores
               (((prunedTracker c6_tracker 1000).pubkey_counts.filter
                   (fun e => 0 < e.2)).map (fun e => e.1))
               (prunedTracker c6_tracker 1000).pubkey_counts).1 = [])) := by
  refine ⟨(C6_theorem c6e_tracker 5 1000).2.1 rfl,
    (C6_theorem c6_tracker 5 1000).1,
    (C6_theorem c6_tracker 5 1000).2.2.2 (by decide) (by decide) 1 540 (by decide)⟩

/-- C7.  A relay whose record has rank 0 is never connected: `pick` can
never return it as the winner (its adjusted score is
`base * rankFactor = base * 0 = 0`, and a winner needs a nonzero score),
and `engage_minion` on a relay whose stored record has rank 0 returns
with no effect at all on the state. -/
theorem C7_theorem :
    (∀ (t : RelayTracker) (max_relays : Nat) (now : Int) (url : Nat) (r : DbRelay),
      (t.all_relays.map Prod.fst).Nodup →
      (t.pick max_relays now).2 = Except.ok url →
      alookup url t.all_relays = some r →
      r.rank ≠ 0)
    ∧ (∀ (st : OverlordState) (url : Nat) (jobs : List RelayJob) (r : RelayRecord),
      alookup url st.storage_relays = some r → r.rank = 0 →
      Overlord.engage_minion st url jobs = st) := by
  constructor
  · intro t max_relays now url r hnd hpick hlook
    simp only [RelayTracker.pick] at hpick
    split at hpick
    · exact absurd hpick (fun hh => Except.noConfusion hh)
    · split at hpick
      · exact absurd hpick (fun hh => Except.noConfusion hh)
      · cases hmax : maxByValue (pickScores (prunedTracker t now)
            (decide (t.relay_assignments.length ≥ max_relays))) with
        | none =>
          rw [hmax] at hpick
          exact absurd hpick (fun hh => Except.noConfusion hh)
        | some winner =>
          rw [hmax] at hpick
          dsimp only at hpick
          by_cases hw : winner.2 = 0
          · rw [if_pos hw] at hpick
            exact absurd hpick (fun hh => Except.noConfusion hh)
          · rw [if_neg hw] at hpick
            split at hpick
            · exact absurd hpick (fun hh => Except.noConfusion hh)
            · have hwu : winner.1 = url := Except.ok.inj hpick
              have hmem := maxByValue_mem hmax
              simp only [pickScores] at hmem
              obtain ⟨e, he, hew⟩ := List.mem_map.mp hmem
              have hkey : alookup e.1 t.all_relays = some e.2 :=
                alookup_of_mem_nodup hnd he
              have he1 : e.1 = url := by rw [← hwu, ← hew]
              rw [he1] at hkey
              have her : e.2 = r := by
                rw [hkey] at hlook
                exact Option.some.inj hlook
              intro hr0
              apply hw
              rw [← hew]
              show pickBaseScore (prunedTracker t now)
                  (decide (t.relay_assignments.length ≥ max_relays)) e.1
                  * rankFactor e.2.rank e.2.success_rate_num e.2.success_rate_den = 0
              rw [her, hr0]
              simp [rankFactor]
  · intro st url jobs r hs hr
    unfold Overlord.engage_minion
    by_cases ho : st.offline = true
    · rw [if_pos ho]
    · rw [if_neg ho]
      by_cases hj : jobs.isEmpty = true
      · rw [if_pos hj]
      · rw [if_neg hj, hs]
        dsimp only
        rw [if_pos hr]

/-- C7, witness: on the S1 tracker the pick winner (relay 1) has a
nonzero-rank record, and engaging the rank-0 relay leaves the Overlord
state unchanged. -/
theorem C7_witness :
    ((⟨3, 1, 1⟩ : DbRelay).rank ≠ 0)
    ∧ Overlord.engage_minion c7_zero_state 1 [exJob RelayConnectionReason.Follow 9]
        = c7_zero_state := by
  refine ⟨C7_theorem.1 c6_tracker 5 1000 1 ⟨3, 1, 1⟩ (by decide) rfl (by decide),
    C7_theorem.2 c7_zero_state 1 [exJob RelayConnectionReason.Follow 9] ⟨0⟩
      (by decide) rfl⟩

/-- C10.  The no-duplicate invariant on assignment pubkey lists is
preserved by every tracker operation: starting from a state whose
assignments are duplicate-free and whose count map has distinct keys,
`pick` (which draws the covered set from the distinct keys of
`pubkey_counts` and only adds pubkeys not already in the winner's
assignment), `remove_someone`, `relay_disconnected` and `add_someone` all
preserve both properties; and `merge_in`, applied to duplicate-free
disjoint assignments (as `pick` does), yields a duplicate-free merge. -/
theorem C10_theorem (t : RelayTracker)
    (h1 : trackerAssignmentsNodup t) (h2 : countsKeysNodup t) :
    (∀ max_relays now, trackerAssignmentsNodup (t.pick max_relays now).1
      ∧ countsKeysNodup (t.pick max_relays now).1)
    ∧ (∀ p, trackerAssignmentsNodup (t.remove_someone p)
      ∧ countsKeysNodup (t.remove_someone p))
    ∧ (∀ url now, trackerAssignmentsNodup (t.relay_disconnected url now)
      ∧ countsKeysNodup (t.relay_disconnected url now))
    ∧ (∀ p, trackerAssignmentsNodup (t.add_someone p)
      ∧ countsKeysNodup (t.add_someone p))
    ∧ (∀ a b m : RelayAssignment, a.pubkeys.Nodup → b.pubkeys.Nodup →
        (∀ x ∈ b.pubkeys, x ∉ a.pubkeys) →
        RelayAssignment.merge_in a b = Except.ok m → m.pubkeys.Nodup) := by
  refine ⟨fun max_relays now => pick_preserves_inv t max_relays now h1 h2,
    ?_, ?_, ?_, ?_⟩
  · intro p
    constructor
    · intro e he
      simp only [RelayTracker.remove_someone] at he
      obtain ⟨e0, he0, heq⟩ := List.mem_map.mp he
      rw [← heq]
      exact (h1 e0 he0).erase p
    · exact List.Nodup.sublist (aremove_keys_sublist p _) h2
  · intro url now
    unfold RelayTracker.relay_disconnected
    cases hl : alookup url t.relay_assignments with
    | none => exact ⟨h1, h2⟩
    | some a =>
      dsimp only
      constructor
      · intro e he
        exact h1 e (List.mem_of_mem_filter he)
      · exact foldl_bumpCount_keys_nodup _ _ h2
  · intro p
    unfold RelayTracker.add_someone
    by_cases hc : (alookup p t.pubkey_counts).isSome = true
    · rw [if_pos hc]; exact ⟨h1, h2⟩
    · rw [if_neg hc]
      by_cases ha : t.relay_assignments.any (fun e => e.2.pubkeys.contains p) = true
      · rw [if_pos ha]; exact ⟨h1, h2⟩
      · rw [if_neg ha]
        refine ⟨h1, ?_⟩
        have hnone : alookup p t.pubkey_counts = none := by
          cases ho : alookup p t.pubkey_counts with
          | none => rfl
          | some v => rw [ho] at hc; exact absurd rfl hc
        show ((ainsert p t.num_relays_per_person t.pubkey_counts).map Prod.fst).Nodup
        rw [ainsert_keys_absent _ hnone]
        exact List.Nodup.append h2 (List.nodup_singleton p)
          (by simpa using (alookup_eq_none_iff p _).mp hnone)
  · intro a b m hA hB hdis hok
    unfold RelayAssignment.merge_in at hok
    by_cases hurl : a.relay_url ≠ b.relay_url
    · rw [if_pos hurl] at hok
      exact absurd hok (fun hh => Except.noConfusion hh)
    · rw [if_neg hurl] at hok
      have hm : (⟨a.relay_url, a.pubkeys ++ b.pubkeys⟩ : RelayAssignment) = m :=
        Except.ok.inj hok
      rw [← hm]
      exact List.Nodup.append hA hB (fun x hx hxb => hdis x hxb hx)

/-- C10, witness at the S1 tracker (no assignments, distinct count keys):
the invariants hold after a pick and after a remove. -/
theorem C10_witness :
    (trackerAssignmentsNodup (c6_tracker.pick 5 1000).1
      ∧ countsKeysNodup (c6_tracker.pick 5 1000).1)
    ∧ (trackerAssignmentsNodup (c6_tracker.remove_someone 10)
      ∧ countsKeysNodup (c6_tracker.remove_someone 10)) := by
  obtain ⟨hp, hr, -, -, -⟩ := C10_theorem c6_tracker
    (by intro e he; simp [c6_tracker] at he)
    (by show ([(10, 2), (11, 2)].map Prod.fst).Nodup; decide)
  exact ⟨hp 5 1000, hr 10⟩

end Gossip
